import Mathlib

/-!
Verification of `scripts/calculate_coverage.py`, a utility that computes an
aggregate line-coverage percentage for a filtered subset of source files.

The script is embedded shallowly:
  * Python string membership (the `in` operator) becomes a substring scan
    over character lists;
  * the two compiled regular expressions become explicit scanners
    (`matchFileLine` for the anchored `File '<path>'` pattern and
    `searchCoverage` for the searched `Lines executed:<p>% of <t>` pattern);
  * the percentage parsed from the decimal text is carried exactly as the
    pair (integer digits, fractional digits), so `int(total * percent / 100)`
    becomes natural-number division (truncation of a nonnegative value);
  * file reading and subprocess execution are inputs: the JSON extractor
    receives the outcome of open-and-parse, the gcov extractor receives one
    outcome (captured text or caught exception) per discovered data file;
  * standard error is an explicit list of diagnostic lines, standard output
    and the exit code are the result of `mainRun`.
-/

/-- The single-quote character, used by the `File '<path>'` pattern. -/
def squote : Char := Char.ofNat 39

/-- Boolean list-prefix test (used to anchor literal pattern pieces). -/
def listPfx : List Char → List Char → Bool
  | [], _ => true
  | _ :: _, [] => false
  | a :: as, b :: bs => (a == b) && listPfx as bs

/-- Boolean substring test: Python `p in s` on the character lists. -/
def substrB : List Char → List Char → Bool
  | p, [] => p.isEmpty
  | p, c :: t => listPfx p (c :: t) || substrB p t

/-- Python `pattern in filename` for strings. -/
def pyIn (pattern filename : String) : Bool :=
  substrB pattern.toList filename.toList

/-- Line 62: `any(pattern in filename for pattern in filters)` in
`calculate_from_json`. -/
def jsonMatches (filters : List String) (filename : String) : Bool :=
  filters.any (fun pattern => pyIn pattern filename)

/-- Line 150: `any(pattern in filename for pattern in filters)` in
`calculate_from_gcov`. -/
def gcovMatches (filters : List String) (filename : String) : Bool :=
  filters.any (fun pattern => pyIn pattern filename)

/-- Line 199: `filters = args.filters if args.filters else ['src/']`
(`None` and the empty list are both falsy in Python). -/
def effectiveFilters : Option (List String) → List String
  | none => ["src/"]
  | some [] => ["src/"]
  | some (p :: ps) => p :: ps

/-- One record of the gcovr JSON summary, after the `.get` defaulting of
lines 60-64: `filename` defaults to the empty string, `line_total` and
`line_covered` default to 0. -/
structure JsonRecord where
  filename : String
  line_total : Int
  line_covered : Int
deriving DecidableEq

/-- The decoded JSON document: `data.get('files', [])` of line 59. -/
structure CoverageDoc where
  files : List JsonRecord
deriving DecidableEq

/-- The two exceptions caught on lines 48-53 around open-and-`json.load`. -/
inductive ReadError where
  | fileNotFound
  | jsonDecodeError
deriving DecidableEq

/-- The exception text interpolated into the line-52 diagnostic. -/
def renderReadError : ReadError → String
  | ReadError.fileNotFound => "FileNotFoundError"
  | ReadError.jsonDecodeError => "JSONDecodeError"

/-- One step of the accumulation loop of lines 59-69: the accumulator is
(total_lines, covered_lines, matched_files). -/
def jsonStep (filters : List String) (acc : Int × Int × List String)
    (r : JsonRecord) : Int × Int × List String :=
  if jsonMatches filters r.filename then
    if 0 < r.line_total then
      (acc.1 + r.line_total, acc.2.1 + r.line_covered, acc.2.2 ++ [r.filename])
    else acc
  else acc

/-- The accumulation loop of lines 59-69 over the record list. -/
def jsonFold (filters : List String) :
    Int × Int × List String → List JsonRecord → Int × Int × List String
  | acc, [] => acc
  | acc, r :: rs => jsonFold filters (jsonStep filters acc r) rs

/-- `calculate_from_json` (lines 44-79).  The first component of the input
is the outcome of opening and parsing the JSON file; the result pairs the
returned value (`None` becomes `none`) with the lines printed to standard
error. -/
def calculate_from_json (input : Except ReadError CoverageDoc)
    (filters : List String) : Option ℚ × List String :=
  match input with
  | Except.error e =>
      (none, ["Error reading coverage file: " ++ renderReadError e])
  | Except.ok doc =>
      let res := jsonFold filters (0, 0, []) doc.files
      if res.1 = 0 then
        (none, ["Warning: No matching files found for filters"])
      else
        (some (((res.2.1 : ℚ) / (res.1 : ℚ)) * 100),
         ["Matched " ++ toString res.2.2.length ++ " files"])

/-- Value of a run of decimal digits (most significant first). -/
def digitsToNat (ds : List Char) : Nat :=
  ds.foldl (fun a c => a * 10 + (c.toNat - 48)) 0

/-- Anchored match of the line-99 pattern `File '([^']+)'`, as used by
`file_pattern.match(line)` on line 122: the literal prefix, then a maximal
nonempty run of non-quote characters, then a closing quote; yields the
captured group. -/
def matchFileLine (line : List Char) : Option String :=
  let lit := ['F', 'i', 'l', 'e', ' ', squote]
  if listPfx lit line then
    let rest := line.drop 6
    let grp := rest.takeWhile (fun c => c != squote)
    let after := rest.dropWhile (fun c => c != squote)
    match grp, after with
    | [], _ => none
    | _ :: _, [] => none
    | _ :: _, _ :: _ => some (String.mk grp)
  else none

/-- Match of the line-98 pattern `Lines executed:(\d+\.\d+)% of (\d+)`
at the start of the given text: yields (a, b, k, t) where the percentage
text is `a.b` with `k` fractional digits and `t` is the total.  Each digit
run is maximal and nonempty, exactly as the greedy `\d+` groups. -/
def matchCoverageAt (cs : List Char) : Option (Nat × Nat × Nat × Nat) :=
  if listPfx "Lines executed:".toList cs then
    let r1 := cs.drop 15
    let ds1 := r1.takeWhile Char.isDigit
    let r2 := r1.dropWhile Char.isDigit
    if ds1.isEmpty then none else
    match r2 with
    | '.' :: r3 =>
        let ds2 := r3.takeWhile Char.isDigit
        let r4 := r3.dropWhile Char.isDigit
        if ds2.isEmpty then none else
        match r4 with
        | '%' :: r5 =>
            if listPfx " of ".toList r5 then
              let r6 := r5.drop 4
              let ds3 := r6.takeWhile Char.isDigit
              if ds3.isEmpty then none
              else some (digitsToNat ds1, digitsToNat ds2, ds2.length,
                         digitsToNat ds3)
            else none
        | _ => none
    | _ => none
  else none

/-- `coverage_pattern.search(line)` of line 127: leftmost match of the
coverage pattern anywhere in the line. -/
def searchCoverage : List Char → Option (Nat × Nat × Nat × Nat)
  | [] => none
  | c :: rest =>
      match matchCoverageAt (c :: rest) with
      | some r => some r
      | none => searchCoverage rest

/-- Line 131, `covered = int(total * percent / 100)`, with the percentage
`a.b` (k fractional digits) carried exactly: truncation of the nonnegative
quotient is natural-number division. -/
def coveredOf (a b k t : Nat) : Nat :=
  (t * (a * 10 ^ k + b)) / (100 * 10 ^ k)

/-- The exact rational value of the percentage text `a.b` with `k`
fractional digits. -/
def percentVal (a b k : Nat) : ℚ :=
  ((a : ℚ) * 10 ^ k + (b : ℚ)) / 10 ^ k

/-- The `file_coverage` dict of line 101: filename to (covered, total),
in insertion order. -/
abbrev CovTable := List (String × Nat × Nat)

/-- Python `filename in file_coverage` / `file_coverage[filename]`. -/
def lookupTable : CovTable → String → Option (Nat × Nat)
  | [], _ => none
  | (k, v) :: rest, key => if k = key then some v else lookupTable rest key

/-- `file_coverage[filename] = value` when the key is already present:
the value is replaced in place. -/
def setTable : CovTable → String → Nat × Nat → CovTable
  | [], _, _ => []
  | (k, v) :: rest, key, nv =>
      if k = key then (k, nv) :: rest else (k, v) :: setTable rest key nv

/-- Lines 133-140: store or update the coverage for a file.  An existing
entry is replaced only when the new total is strictly larger; a new key is
appended. -/
def storeCoverage (tbl : CovTable) (file : String) (covered total : Nat) :
    CovTable :=
  match lookupTable tbl file with
  | some prev =>
      if prev.2 < total then setTable tbl file (covered, total) else tbl
  | none => tbl ++ [(file, (covered, total))]

/-- Lines 120-142, the body of the per-line loop: the state is the
`current_file` cursor and the table.  A `File '...'` match sets the cursor
and skips the rest; otherwise a coverage match with the cursor set records
the entry and clears the cursor; otherwise the state is unchanged. -/
def processLine (st : Option String × CovTable) (line : String) :
    Option String × CovTable :=
  match matchFileLine line.toList with
  | some f => (some f, st.2)
  | none =>
      match searchCoverage line.toList, st.1 with
      | some (a, b, k, t), some file =>
          (none, storeCoverage st.2 file (coveredOf a b k t) t)
      | _, _ => st

/-- The per-line loop of line 121 over the split output. -/
def processLines (st : Option String × CovTable) :
    List String → Option String × CovTable
  | [] => st
  | l :: ls => processLines (processLine st l) ls

/-- Parsing one captured gcov output (lines 120-142): the cursor starts
unset for each data file; only the table survives. -/
def parseGcovOutput (tbl : CovTable) (output : String) : CovTable :=
  (processLines (none, tbl) (output.splitOn "\n")).2

/-- The two exceptions caught on lines 115-117 around `subprocess.run`. -/
inductive RunError where
  | timeoutExpired
  | gcovNotFound
deriving DecidableEq

/-- The line-116 warning for a data file whose annotator run failed. -/
def gcovWarn (name : String) (e : RunError) : String :=
  "Warning: Failed to run gcov on " ++ name ++
    (match e with
     | RunError.timeoutExpired => " (TimeoutExpired)"
     | RunError.gcovNotFound => " (FileNotFoundError)")

/-- One iteration of the lines 103-142 loop over discovered data files:
the item carries the data file name and the outcome of `subprocess.run`
(captured combined output, or the caught exception).  A failure appends a
warning and leaves the table unchanged; a success parses the output into
the table. -/
def gcovStep (acc : CovTable × List String)
    (g : String × Except RunError String) : CovTable × List String :=
  match g.2 with
  | Except.error e => (acc.1, acc.2 ++ [gcovWarn g.1 e])
  | Except.ok out => (parseGcovOutput acc.1 out, acc.2)

/-- The loop of lines 103-142 over all discovered data files. -/
def gcovLoop : CovTable × List String →
    List (String × Except RunError String) → CovTable × List String
  | acc, [] => acc
  | acc, g :: gs => gcovLoop (gcovStep acc g) gs

/-- One step of the aggregation loop of lines 149-153 over table entries. -/
def gcovAggStep (filters : List String) (acc : Nat × Nat × List String)
    (ent : String × Nat × Nat) : Nat × Nat × List String :=
  if gcovMatches filters ent.1 then
    (acc.1 + ent.2.2, acc.2.1 + ent.2.1, acc.2.2 ++ [ent.1])
  else acc

/-- The aggregation loop of lines 149-153. -/
def gcovAgg (filters : List String) :
    Nat × Nat × List String → CovTable → Nat × Nat × List String
  | acc, [] => acc
  | acc, ent :: rest => gcovAgg filters (gcovAggStep filters acc ent) rest

/-- `calculate_from_gcov` (lines 82-166).  The discovered data files are
given with the outcome of each annotator invocation; the result pairs the
returned value with the lines printed to standard error. -/
def calculate_from_gcov (gcdaFiles : List (String × Except RunError String))
    (filters : List String) : Option ℚ × List String :=
  if gcdaFiles.isEmpty then
    (none, ["Warning: No .gcda files found"])
  else
    let lp := gcovLoop ([], []) gcdaFiles
    let agg := gcovAgg filters (0, 0, []) lp.1
    if agg.1 = 0 then
      (none, lp.2 ++ ["Warning: No matching files found for filters"])
    else
      (some (((agg.2.1 : ℚ) / (agg.1 : ℚ)) * 100),
       lp.2 ++ ["Matched " ++ toString agg.2.2.length ++ " files"])

/-- Round a rational to the nearest integer, ties to even: the rounding
Python applies when formatting with one decimal place. -/
def roundHalfEven (x : ℚ) : Int :=
  let f := Int.floor x
  let r := x - (f : ℚ)
  if r < 1 / 2 then f
  else if 1 / 2 < r then f + 1
  else if 2 ∣ f then f else f + 1

/-- Python `f"{x:.1f}"`: the value rounded to one decimal place. -/
def format1f (x : ℚ) : String :=
  let n := roundHalfEven (x * 10)
  let sign := if n < 0 then "-" else ""
  sign ++ toString (n.natAbs / 10) ++ "." ++ toString (n.natAbs % 10)

/-- Lines 206-210 of `main`: from the extractor result, the exit code and
the lines printed to standard output. -/
def mainRun (coverage : Option ℚ) : Nat × List String :=
  match coverage with
  | some c => (0, [format1f c])
  | none => (1, [])

/-- The annotator output line `File 'a'` (single quotes spelled out). -/
def fileLineA : String := String.mk ['F', 'i', 'l', 'e', ' ', squote, 'a', squote]

/-- The annotator output line `File 'src/foo.c'`. -/
def fileLineFoo : String :=
  String.mk (['F', 'i', 'l', 'e', ' ', squote] ++ "src/foo.c".toList ++ [squote])

/-- A coverage-number line with a percentage inside the usual range. -/
def covLineFoo : String := "Lines executed:75.00% of 40"

/-- A coverage-number line with a percentage above 100, still accepted by
the parsing pattern. -/
def covLine150 : String := "Lines executed:150.00% of 40"

lemma listPfx_iff (p : List Char) : ∀ l : List Char,
    listPfx p l = true ↔ ∃ v, l = p ++ v := by
  induction p with
  | nil => intro l; simp [listPfx]
  | cons a as ih =>
      intro l
      cases l with
      | nil => simp [listPfx]
      | cons b bs =>
          simp only [listPfx, Bool.and_eq_true, beq_iff_eq, ih bs,
            List.cons_append, List.cons.injEq]
          constructor
          · rintro ⟨rfl, v, rfl⟩; exact ⟨v, rfl, rfl⟩
          · rintro ⟨v, rfl, rfl⟩; exact ⟨rfl, v, rfl⟩

lemma substrB_iff (p : List Char) : ∀ l : List Char,
    substrB p l = true ↔ ∃ u v, l = u ++ p ++ v := by
  intro l
  induction l with
  | nil =>
      simp only [substrB, List.isEmpty_iff]
      constructor
      · rintro rfl; exact ⟨[], [], rfl⟩
      · rintro ⟨u, v, h⟩
        rcases List.append_eq_nil.1 h.symm with ⟨h1, h2⟩
        rcases List.append_eq_nil.1 h1 with ⟨-, h3⟩
        exact h3
  | cons c t ih =>
      simp only [substrB, Bool.or_eq_true, listPfx_iff, ih]
      constructor
      · rintro (⟨v, h⟩ | ⟨u, v, rfl⟩)
        · exact ⟨[], v, by simpa using h⟩
        · exact ⟨c :: u, v, rfl⟩
      · rintro ⟨u, v, h⟩
        cases u with
        | nil => left; exact ⟨v, by simpa using h⟩
        | cons x xs =>
            right
            rcases List.cons.injEq .. ▸ h with ⟨-, h2⟩
            exact ⟨xs, v, h2⟩

lemma pyIn_iff (pattern s : String) :
    pyIn pattern s = true ↔ ∃ u v, s.toList = u ++ pattern.toList ++ v := by
  unfold pyIn; exact substrB_iff pattern.toList s.toList

lemma empty_pyIn (s : String) : pyIn "" s = true := by
  rw [pyIn_iff]; exact ⟨[], s.toList, rfl⟩

lemma lookupTable_set (tbl : CovTable) (key : String) (nv : Nat × Nat) :
    (∃ v0, lookupTable tbl key = some v0) →
      lookupTable (setTable tbl key nv) key = some nv := by
  induction tbl with
  | nil => rintro ⟨v0, h⟩; simp [lookupTable] at h
  | cons e rest ih =>
      obtain ⟨k, v⟩ := e
      rintro ⟨v0, h⟩
      by_cases hk : k = key
      · simp [lookupTable, setTable, hk]
      · simp only [lookupTable, setTable, if_neg hk] at h ⊢
        exact ih ⟨v0, h⟩

lemma lookupTable_append (tbl : CovTable) (key : String) (nv : Nat × Nat)
    (h : lookupTable tbl key = none) :
    lookupTable (tbl ++ [(key, nv)]) key = some nv := by
  induction tbl with
  | nil => simp [lookupTable]
  | cons e rest ih =>
      obtain ⟨k, v⟩ := e
      by_cases hk : k = key
      · simp [lookupTable, hk] at h
      · simp only [lookupTable, if_neg hk, List.cons_append] at h ⊢
        exact ih h

lemma coveredOf_le (a b k t : Nat) (h : a * 10 ^ k + b ≤ 100 * 10 ^ k) :
    coveredOf a b k t ≤ t := by
  unfold coveredOf
  calc t * (a * 10 ^ k + b) / (100 * 10 ^ k)
      ≤ t * (100 * 10 ^ k) / (100 * 10 ^ k) :=
        Nat.div_le_div_right (Nat.mul_le_mul_left t h)
    _ = t := Nat.mul_div_cancel _ (by positivity)

lemma setTable_bounds (f : String) (c t : Nat) (hct : c ≤ t) :
    ∀ tbl : CovTable, (∀ e ∈ tbl, e.2.1 ≤ e.2.2) →
      ∀ e ∈ setTable tbl f (c, t), e.2.1 ≤ e.2.2 := by
  intro tbl
  induction tbl with
  | nil => intro _ e he; simp [setTable] at he
  | cons x rest ih =>
      obtain ⟨k, v⟩ := x
      intro htbl e he
      by_cases hk : k = f
      · rw [setTable, if_pos hk] at he
        rcases List.mem_cons.1 he with rfl | h2
        · exact hct
        · exact htbl e (List.mem_cons_of_mem _ h2)
      · rw [setTable, if_neg hk] at he
        rcases List.mem_cons.1 he with rfl | h2
        · exact htbl _ (List.mem_cons_self _ _)
        · exact ih (fun x hx => htbl x (List.mem_cons_of_mem _ hx)) e h2

lemma storeCoverage_bounds (tbl : CovTable) (f : String) (c t : Nat)
    (hct : c ≤ t) (htbl : ∀ e ∈ tbl, e.2.1 ≤ e.2.2) :
    ∀ e ∈ storeCoverage tbl f c t, e.2.1 ≤ e.2.2 := by
  unfold storeCoverage
  cases hl : lookupTable tbl f with
  | none =>
      intro e he
      rcases List.mem_append.1 he with h1 | h2
      · exact htbl e h1
      · rcases List.mem_cons.1 h2 with rfl | h3
        · exact hct
        · simp at h3
  | some prev =>
      dsimp only
      by_cases hlt : prev.2 < t
      · rw [if_pos hlt]; exact setTable_bounds f c t hct tbl htbl
      · rw [if_neg hlt]; exact htbl

lemma processLine_bounds (cur : Option String) (tbl : CovTable) (line : String)
    (htbl : ∀ e ∈ tbl, e.2.1 ≤ e.2.2)
    (hpct : ∀ a b k t, searchCoverage line.toList = some (a, b, k, t) →
        a * 10 ^ k + b ≤ 100 * 10 ^ k) :
    ∀ e ∈ (processLine (cur, tbl) line).2, e.2.1 ≤ e.2.2 := by
  unfold processLine
  cases hf : matchFileLine line.toList with
  | some f => exact htbl
  | none =>
      cases hs : searchCoverage line.toList with
      | none => cases cur <;> exact htbl
      | some r =>
          obtain ⟨a, b, k, t⟩ := r
          cases cur with
          | none => exact htbl
          | some f =>
              exact storeCoverage_bounds tbl f _ t
                (coveredOf_le a b k t (hpct a b k t hs)) htbl

lemma processLines_bounds (lines : List String) :
    ∀ (cur : Option String) (tbl : CovTable),
      (∀ e ∈ tbl, e.2.1 ≤ e.2.2) →
      (∀ l ∈ lines, ∀ a b k t, searchCoverage l.toList = some (a, b, k, t) →
          a * 10 ^ k + b ≤ 100 * 10 ^ k) →
      ∀ e ∈ (processLines (cur, tbl) lines).2, e.2.1 ≤ e.2.2 := by
  induction lines with
  | nil => intro cur tbl htbl _ e he; exact htbl e he
  | cons l ls ih =>
      intro cur tbl htbl hpct
      have h1 := processLine_bounds cur tbl l htbl
        (hpct l (List.mem_cons_self l ls))
      have h2 := ih (processLine (cur, tbl) l).1 (processLine (cur, tbl) l).2
        h1 (fun l2 hl2 => hpct l2 (List.mem_cons_of_mem _ hl2))
      simpa [processLines] using h2

lemma gcovLoop_append (xs ys : List (String × Except RunError String)) :
    ∀ acc, gcovLoop acc (xs ++ ys) = gcovLoop (gcovLoop acc xs) ys := by
  induction xs with
  | nil => intro acc; rfl
  | cons g gs ih => intro acc; simp only [List.cons_append, gcovLoop]; exact ih _

lemma jsonFold_all (filters : List String) (rs : List JsonRecord) :
    ∀ acc : Int × Int × List String,
      (∀ r ∈ rs, jsonMatches filters r.filename = true) →
      (∀ r ∈ rs, 0 < r.line_total) →
      jsonFold filters acc rs =
        (acc.1 + (rs.map JsonRecord.line_total).sum,
         acc.2.1 + (rs.map JsonRecord.line_covered).sum,
         acc.2.2 ++ rs.map JsonRecord.filename) := by
  induction rs with
  | nil => intro acc _ _; simp [jsonFold]
  | cons r rs ih =>
      intro acc hm hp
      rw [jsonFold, ih _ (fun x hx => hm x (List.mem_cons_of_mem _ hx))
        (fun x hx => hp x (List.mem_cons_of_mem _ hx))]
      unfold jsonStep
      rw [if_pos (hm r (List.mem_cons_self _ _)), if_pos (hp r (List.mem_cons_self _ _))]
      simp [add_assoc]

/-- C1: for every JSON input in which every record's filename matches the
FilterSet and every record has `line_total > 0` (and at least one record is
present, so a value is computed at all), the value computed by the JSON
extractor equals `100 * sum(line_covered) / sum(line_total)` over all
records. -/
theorem json_aggregate_ratio (doc : CoverageDoc) (filters : List String)
    (hmatch : ∀ r ∈ doc.files, jsonMatches filters r.filename = true)
    (hpos : ∀ r ∈ doc.files, 0 < r.line_total)
    (hne : doc.files ≠ []) :
    (calculate_from_json (Except.ok doc) filters).1 =
      some (100 * ((doc.files.map JsonRecord.line_covered).sum : ℚ) /
        ((doc.files.map JsonRecord.line_total).sum : ℚ)) := by
  have hsum : 0 < (doc.files.map JsonRecord.line_total).sum := by
    refine List.sum_pos _ ?_ (by simpa using hne)
    intro x hx
    obtain ⟨r, hr, rfl⟩ := List.mem_map.1 hx
    exact hpos r hr
  simp only [calculate_from_json]
  rw [jsonFold_all filters doc.files (0, 0, []) hmatch hpos]
  dsimp only
  rw [if_neg (by omega)]
  dsimp only
  congr 1
  rw [zero_add, zero_add, div_mul_eq_mul_div, mul_comm]

/-- Witness for C1 at the concrete document with one record
(src/a.c, 100 total, 80 covered) and the default filter. -/
theorem json_aggregate_ratio_witness :
    (calculate_from_json
        (Except.ok (CoverageDoc.mk [JsonRecord.mk "src/a.c" 100 80]))
        ["src/"]).1 = some 80 := by
  have h := json_aggregate_ratio
    (CoverageDoc.mk [JsonRecord.mk "src/a.c" 100 80]) ["src/"]
    (by decide) (by decide) (by decide)
  rw [h]
  norm_num

/-- C2: in the gcov path, a later entry for an already-present filename
replaces the stored one exactly when its total is strictly larger; on equal
(or smaller) totals the first-seen entry is kept, and an absent filename is
simply inserted. -/
theorem gcov_merge_keeps_max_total (tbl : CovTable) (file : String)
    (c t : Nat) :
    (lookupTable tbl file = none →
        lookupTable (storeCoverage tbl file c t) file = some (c, t)) ∧
    (∀ pc pt, lookupTable tbl file = some (pc, pt) →
        lookupTable (storeCoverage tbl file c t) file =
          if pt < t then some (c, t) else some (pc, pt)) := by
  constructor
  · intro h
    unfold storeCoverage
    rw [h]
    exact lookupTable_append tbl file (c, t) h
  · intro pc pt h
    unfold storeCoverage
    rw [h]
    dsimp only
    by_cases hlt : pt < t
    · rw [if_pos hlt, if_pos hlt]
      exact lookupTable_set tbl file (c, t) ⟨(pc, pt), h⟩
    · rw [if_neg hlt, if_neg hlt]
      exact h

/-- C3: the gcov output parser is a two-state cursor machine: a line
matching `File '<path>'` sets the cursor and leaves the table alone; a line
matching the Lines-executed pattern while the cursor is set records the
entry for the cursor filename and clears the cursor; a Lines-executed line
observed while the cursor is unset leaves the state unchanged (ignored,
nothing recorded, no crash). -/
theorem gcov_cursor_machine (cur : Option String) (tbl : CovTable)
    (line : String) :
    (∀ f, matchFileLine line.toList = some f →
        processLine (cur, tbl) line = (some f, tbl)) ∧
    (matchFileLine line.toList = none → ∀ a b k t f,
        searchCoverage line.toList = some (a, b, k, t) → cur = some f →
        processLine (cur, tbl) line =
          (none, storeCoverage tbl f (coveredOf a b k t) t)) ∧
    (matchFileLine line.toList = none → cur = none →
        processLine (cur, tbl) line = (none, tbl)) := by
  refine ⟨?_, ?_, ?_⟩
  · intro f h
    unfold processLine
    rw [h]
  · intro hnone a b k t f hs hc
    subst hc
    unfold processLine
    rw [hnone, hs]
  · intro hnone hc
    subst hc
    unfold processLine
    rw [hnone]
    cases hs : searchCoverage line.toList with
    | none => rfl
    | some r => obtain ⟨a, b, k, t⟩ := r; rfl

/-- C4 (amended): provided every percentage the parsing pattern accepts in
the scanned lines is at most 100, every entry of the coverage table built
by the gcov parser from a table already satisfying the bound satisfies
`0 <= coveredLines <= totalLines`.  As stated over all annotator outputs
(percentages above 100 included) the claim is false: see the
counterexample. -/
theorem gcov_entry_bounds (cur : Option String) (tbl : CovTable)
    (lines : List String)
    (htbl : ∀ e ∈ tbl, e.2.1 ≤ e.2.2)
    (hpct : ∀ l ∈ lines, ∀ a b k t,
        searchCoverage l.toList = some (a, b, k, t) →
        a * 10 ^ k + b ≤ 100 * 10 ^ k) :
    ∀ e ∈ (processLines (cur, tbl) lines).2, 0 ≤ e.2.1 ∧ e.2.1 ≤ e.2.2 :=
  fun e he => ⟨Nat.zero_le _, processLines_bounds lines cur tbl htbl hpct e he⟩

/-- Witness for C4 at a concrete bounded table and an empty line stream. -/
theorem gcov_entry_bounds_witness : (0 : ℕ) ≤ 1 ∧ (1 : ℕ) ≤ 2 :=
  gcov_entry_bounds none [("a", (1, 2))] [] (by decide) (by simp)
    ("a", (1, 2)) (by decide)

/-- Counterexample for C4 as stated: the annotator output
`File 'a'` / `Lines executed:150.00% of 40` is accepted by the parsing
pattern and stores the entry (covered=60, total=40), violating
`coveredLines <= totalLines`. -/
theorem gcov_entry_bounds_cex :
    ¬ (∀ lines : List String,
        ∀ e ∈ (processLines (none, ([] : CovTable)) lines).2,
          e.2.1 ≤ e.2.2) := by
  intro h
  have h2 := h [fileLineA, covLine150] ("a", (60, 40)) (by decide)
  exact absurd h2 (by decide)

/-- C5: the recorded covered count is the exact mathematical floor of
`t * p / 100` in exact rational arithmetic, where `p` is the value of the
parsed decimal percentage; in particular `File 'src/foo.c'` followed by
`Lines executed:75.00% of 40` records the entry (covered=30, total=40) for
src/foo.c. -/
theorem gcov_covered_exact_floor :
    (∀ a b k t : Nat,
        coveredOf a b k t = ⌊(t : ℚ) * percentVal a b k / 100⌋₊) ∧
    processLines (none, ([] : CovTable)) [fileLineFoo, covLineFoo] =
      (none, [("src/foo.c", (30, 40))]) := by
  constructor
  · intro a b k t
    have hA : percentVal a b k = ((a * 10 ^ k + b : ℕ) : ℚ) / ((10 ^ k : ℕ) : ℚ) := by
      unfold percentVal
      push_cast
      ring
    rw [hA, ← mul_div_assoc]
    rw [show ((t : ℚ) * ((a * 10 ^ k + b : ℕ) : ℚ)) =
        (((t * (a * 10 ^ k + b) : ℕ)) : ℚ) from by push_cast; ring]
    rw [show (100 : ℚ) = ((100 : ℕ) : ℚ) from by norm_num]
    rw [Nat.floor_div_nat, Nat.floor_div_nat, Nat.floor_natCast,
      Nat.div_div_eq_div_mul]
    unfold coveredOf
    rw [Nat.mul_comm (10 ^ k) 100]
  · decide

/-- C6: when opening or parsing the JSON document fails (missing path or
malformed document), the JSON extractor returns no value — not a partial or
zero aggregate — and emits a diagnostic. -/
theorem json_read_error_result (e : ReadError) (filters : List String) :
    (calculate_from_json (Except.error e) filters).1 = none ∧
    (calculate_from_json (Except.error e) filters).2 ≠ [] := by
  constructor <;> simp [calculate_from_json]

/-- C7: in the gcov path a data file whose annotator invocation fails
(timeout or missing binary) contributes exactly one warning, leaves the
accumulated table untouched, and processing continues over the remaining
data files. -/
theorem gcov_item_failure_skipped (acc : CovTable × List String)
    (pre post : List (String × Except RunError String)) (name : String)
    (e : RunError) :
    gcovLoop acc (pre ++ (name, Except.error e) :: post) =
      gcovLoop ((gcovLoop acc pre).1,
        (gcovLoop acc pre).2 ++ [gcovWarn name e]) post := by
  rw [gcovLoop_append]
  rfl

/-- C8: the process exits with status 0 and prints exactly the one-decimal
percentage line to standard output when an extractor produced a result, and
exits with status 1 printing nothing to standard output otherwise. -/
theorem main_output_contract (r : Option ℚ) :
    (∀ c, r = some c → mainRun r = (0, [format1f c])) ∧
    (r = none → mainRun r = (1, [])) ∧
    ((mainRun r).1 = 0 ↔ r ≠ none) ∧
    ((mainRun r).2 ≠ [] ↔ r ≠ none) := by
  refine ⟨?_, ?_, ?_, ?_⟩ <;> cases r <;> simp [mainRun]

/-- C9: filtering is pure substring OR-matching in both extractors — a
filename matches iff some pattern of the FilterSet occurs as a contiguous
substring of it — and an absent (or empty) filter list defaults to the
single pattern src/. -/
theorem filter_substring_or_semantics (filters : List String)
    (filename : String) :
    (jsonMatches filters filename = true ↔
        ∃ p ∈ filters, ∃ u v, filename.toList = u ++ p.toList ++ v) ∧
    (gcovMatches filters filename = true ↔
        ∃ p ∈ filters, ∃ u v, filename.toList = u ++ p.toList ++ v) ∧
    effectiveFilters none = ["src/"] ∧
    effectiveFilters (some []) = ["src/"] := by
  refine ⟨?_, ?_, rfl, rfl⟩ <;>
    simp only [jsonMatches, gcovMatches, List.any_eq_true, pyIn_iff]

/-- C10: the empty-string pattern is universal for the substring membership
test: whenever the FilterSet contains the empty string, every filename
matches in both extractors. -/
theorem empty_pattern_matches_all (filters : List String) (filename : String)
    (h : "" ∈ filters) :
    jsonMatches filters filename = true ∧
    gcovMatches filters filename = true := by
  have hs : pyIn "" filename = true := empty_pyIn filename
  constructor
  · unfold jsonMatches
    rw [List.any_eq_true]
    exact ⟨"", h, hs⟩
  · unfold gcovMatches
    rw [List.any_eq_true]
    exact ⟨"", h, hs⟩

/-- Witness for C10 at the concrete filter list containing only the empty
pattern and an arbitrary concrete filename. -/
theorem empty_pattern_matches_all_witness :
    jsonMatches [""] "abc" = true ∧ gcovMatches [""] "abc" = true :=
  empty_pattern_matches_all [""] "abc" (by decide)
